import Mathlib

/-!
# Verification of a multi-deck Blackjack rules engine

Shallow embedding of the engine (`Card`, `Deck`, `Shoe`, `Hand`, `Blackjack`)
and proofs about it.

Modelling conventions:
* JS arrays used as stacks (`this.cards`) are stored **top-first**: the JS
  `pop()` (which removes the *last* array element) is `List.head`, and the JS
  `push(x)` (append at the end, i.e. on top) is `x :: l`.  The discard pile
  uses the same orientation consistently.
* The Fisher–Yates shuffle draws from `Math.random`; the development is
  parameterised by an arbitrary `shuffle : List Card → List Card`.  Theorems
  that need it assume the shuffle is length-preserving or a permutation;
  executable witnesses instantiate `shuffle := id`.
* The process-global `Card._nextId` counter is threaded explicitly through the
  shoe state as `nextId`.
* The JS `Set` `currentRoundDealt` of dealt card ids is a duplicate-free
  `List Nat` (`none` models the unset/`null` states outside a round).
* JS `throw` is modelled by an error component in the result; the state
  component carries the state at the moment of the throw (the source performs
  all precondition checks before any mutation).
-/

inductive Suit where
  | spades | clubs | hearts | diamonds
  deriving DecidableEq, Repr

inductive Rank where
  | A | r2 | r3 | r4 | r5 | r6 | r7 | r8 | r9 | r10 | J | Q | K
  deriving DecidableEq, Repr

/-- A physical card: suit, rank and the process-unique id assigned at
construction (`this.id = Card._nextId++`).  The derived `color` field is a
pure function of the suit and is omitted. -/
structure Card where
  suit : Suit
  rank : Rank
  id : Nat
  deriving DecidableEq, Repr

/-- Source `Card.getValue()`: J/Q/K ↦ 10, A ↦ 11, numeral ranks ↦ their value. -/
def Card.getValue (c : Card) : Nat :=
  match c.rank with
  | .J | .Q | .K => 10
  | .A => 11
  | .r2 => 2 | .r3 => 3 | .r4 => 4 | .r5 => 5 | .r6 => 6
  | .r7 => 7 | .r8 => 8 | .r9 => 9 | .r10 => 10

/-- The 52 suit×rank combinations in the nested-loop order of the `Deck`
constructor (for each suit, all ranks). -/
def deckPairs : List (Suit × Rank) :=
  [Suit.spades, Suit.clubs, Suit.hearts, Suit.diamonds].flatMap fun s =>
    [Rank.A, Rank.r2, Rank.r3, Rank.r4, Rank.r5, Rank.r6, Rank.r7, Rank.r8,
     Rank.r9, Rank.r10, Rank.J, Rank.Q, Rank.K].map fun r => (s, r)

/-- The `Deck` constructor: all 52 combinations, with ids assigned
sequentially starting from `startId` (the global counter). -/
def Deck.make (startId : Nat) : List Card :=
  deckPairs.enum.map fun p => { suit := p.2.1, rank := p.2.2, id := startId + p.1 }

/-- Shoe state.  `cards` and `discardPile` are stored top-first (see the file
header); `nextId` threads the global card-id counter. -/
structure ShoeState where
  cards : List Card
  discardPile : List Card
  numberOfDecks : Nat
  currentRoundDealt : Option (List Nat)
  endAlerted : Bool
  nextId : Nat
  deriving DecidableEq, Repr

/-- The `initializeShoe` loop body: `numberOfDecks` fresh decks in order, each
consuming 52 ids from the global counter; returns the cards (pre-shuffle, in
JS array order — irrelevant modulo the `shuffle` parameter) and the new
counter value. -/
def freshDecks : Nat → Nat → List Card × Nat
  | 0, nid => ([], nid)
  | d + 1, nid =>
    let rest := freshDecks d (nid + 52)
    (Deck.make nid ++ rest.1, rest.2)

/-- Source `Shoe.initializeShoe()`: rebuild `cards` from fresh decks, shuffle, and
reset the end-of-shoe alert.  The discard pile is not touched (the source
only ever calls this when it is empty, or from the constructor). -/
def Shoe.initializeShoe (shuffle : List Card → List Card) (s : ShoeState) : ShoeState :=
  let fresh := freshDecks s.numberOfDecks s.nextId
  { s with cards := shuffle fresh.1, nextId := fresh.2, endAlerted := false }

/-- The `Shoe` constructor. -/
def Shoe.make (shuffle : List Card → List Card) (numberOfDecks nextId : Nat) : ShoeState :=
  Shoe.initializeShoe shuffle
    { cards := [], discardPile := [], numberOfDecks := numberOfDecks,
      currentRoundDealt := none, endAlerted := false, nextId := nextId }

/-- Source `Shoe.startRound()`: `this.currentRoundDealt = new Set()`. -/
def Shoe.startRound (s : ShoeState) : ShoeState :=
  { s with currentRoundDealt := some [] }

/-- Source `Shoe.endRound()`: `this.currentRoundDealt = null`. -/
def Shoe.endRound (s : ShoeState) : ShoeState :=
  { s with currentRoundDealt := none }

/-- The refill step used at the top of `deal()` and again at its fallback:
when `cards` is empty, move the shuffled discard pile into `cards`, or fully
reinitialize the shoe when the discard pile is also empty.  (The source
writes the two occurrences with the two branches swapped; the logic is
identical.) -/
def Shoe.refillIfEmpty (shuffle : List Card → List Card) (s : ShoeState) : ShoeState :=
  if s.cards.isEmpty then
    if s.discardPile.isEmpty then Shoe.initializeShoe shuffle s
    else { s with cards := shuffle s.discardPile, discardPile := [] }
  else s

/-- The bounded duplicate-avoidance loop of `deal()` (`while (this.cards.length
> 0 && attempts < maxAttempts)`), with `fuel = maxAttempts - attempts`.
Returns `(returned card?, cards, discardPile, currentRoundDealt)`; a `none`
first component means the loop fell through to the fallback code. -/
def dealLoop : Nat → List Card → List Card → Option (List Nat) →
    Option Card × List Card × List Card × Option (List Nat)
  | 0, cards, discard, dealt => (none, cards, discard, dealt)
  | _ + 1, [], discard, dealt => (none, [], discard, dealt)
  | fuel + 1, c :: rest, discard, dealt =>
    match dealt with
    | none => (some c, rest, discard, none)
    | some ds =>
      if ds.contains c.id then
        -- duplicate for this round: `this.discardPile.push(card)` and retry
        dealLoop fuel rest (c :: discard) (some ds)
      else (some c, rest, discard, some (c.id :: ds))

/-- The tail of `deal()`'s fallback path: record the fallback card in the
round-tracking set (`Set.add` is a no-op on a present id), then fire the
end-of-shoe notification when the snapshot `initialAvailable` was exactly 1
and `_endAlerted` is not yet set.  The returned `Bool` is true iff the
notification (configured hook or default notice) fired during this call. -/
def Shoe.dealFinish (fb : Option Card) (s : ShoeState) (initialAvailable : Nat) :
    Option Card × ShoeState × Bool :=
  let s1 :=
    match fb, s.currentRoundDealt with
    | some c, some ds =>
      { s with currentRoundDealt := some (if ds.contains c.id then ds else c.id :: ds) }
    | _, _ => s
  let fired := decide (initialAvailable = 1) && !s1.endAlerted
  (fb, { s1 with endAlerted := s1.endAlerted || fired }, fired)

/-- Source `Shoe.deal()`.  Returns the dealt card (`none` only in the pathological
zero-deck configuration, where the JS `pop()` yields `undefined`), the new
shoe state, and whether the end-of-shoe notification fired during the call.
Note that an early return from the duplicate-avoidance loop bypasses the
notification code entirely, exactly as in the source. -/
def Shoe.deal (shuffle : List Card → List Card) (s : ShoeState) :
    Option Card × ShoeState × Bool :=
  let s1 := Shoe.refillIfEmpty shuffle s
  let maxAttempts := max 10 (s1.cards.length + 5)
  let initialAvailable := s1.cards.length
  match dealLoop maxAttempts s1.cards s1.discardPile s1.currentRoundDealt with
  | (some c, cards2, discard2, dealt2) =>
    (some c, { s1 with cards := cards2, discardPile := discard2, currentRoundDealt := dealt2 },
      false)
  | (none, cards2, discard2, dealt2) =>
    let s2 := Shoe.refillIfEmpty shuffle
      { s1 with cards := cards2, discardPile := discard2, currentRoundDealt := dealt2 }
    match s2.cards with
    | [] => Shoe.dealFinish none s2 initialAvailable
    | c :: rest => Shoe.dealFinish (some c) { s2 with cards := rest } initialAvailable

/-- Source `Shoe.addToDiscardPile(cards)` for a sequence of cards: each is pushed in
order onto the discard pile (top-first orientation: pushing `[a, b]` yields
`b :: a :: old`). -/
def Shoe.addToDiscardPile (s : ShoeState) (cs : List Card) : ShoeState :=
  { s with discardPile := cs.reverse ++ s.discardPile }

/-- A player-or-dealer hand.  `cards` is in JS array order (first dealt
first); `originalBet = none` models the field being absent (`undefined`)
until `placeBet`/`double`/`split` set it; `doubled` likewise starts falsy. -/
structure Hand where
  cards : List Card
  bet : Nat
  originalBet : Option Nat
  hasStood : Bool
  hasSurrendered : Bool
  doubled : Bool
  isSplit : Bool
  deriving DecidableEq, Repr

/-- The `Hand` constructor. -/
def Hand.init : Hand :=
  { cards := [], bet := 0, originalBet := none, hasStood := false,
    hasSurrendered := false, doubled := false, isSplit := false }

/-- Source `Hand.addCard(card)`: appends, no validation. -/
def Hand.addCard (h : Hand) (c : Card) : Hand :=
  { h with cards := h.cards ++ [c] }

/-- The accumulation loop of `getScore()`: every Ace adds 11 and is counted;
other cards add `getValue()`.  Accumulator is `(score, aces)`. -/
def Hand.scoreAces (h : Hand) : Nat × Nat :=
  h.cards.foldl
    (fun p c => if c.rank = Rank.A then (p.1 + 11, p.2 + 1) else (p.1 + c.getValue, p.2))
    (0, 0)

/-- The reduction loop of `getScore()`:
`while (score > 21 && aces > 0) { score -= 10; aces--; }`. -/
def reduceAces (score : Nat) : Nat → Nat
  | 0 => score
  | a + 1 => if 21 < score then reduceAces (score - 10) a else score

/-- Source `Hand.getScore()`. -/
def Hand.getScore (h : Hand) : Nat :=
  reduceAces h.scoreAces.1 h.scoreAces.2

/-- Source `Hand.isBusted()`: score > 21. -/
def Hand.isBusted (h : Hand) : Bool :=
  decide (21 < h.getScore)

/-- Source `Hand.isBlackjack()`: exactly 2 cards and score 21. -/
def Hand.isBlackjack (h : Hand) : Bool :=
  decide (h.cards.length = 2) && decide (h.getScore = 21)

/-- JS truthiness of the `originalBet` field: `undefined` and `0` are falsy. -/
def truthyN : Option Nat → Bool
  | none => false
  | some n => n != 0

/-- Errors thrown by the controller.  `invalidAction` models the explicit
`throw new Error(...)` precondition failures; `invalidIndex` models the JS
`TypeError` raised by accessing a property of `undefined` when `handIndex`
is out of range. -/
inductive GameError where
  | invalidAction | invalidIndex
  deriving DecidableEq, Repr

/-- Source `Blackjack` controller state. -/
structure GameState where
  shoe : ShoeState
  dealerHand : Hand
  playerHands : List Hand
  currentHandIndex : Nat
  standOnSoft17 : Bool
  allowSurrender : Bool
  chips : Nat
  deriving DecidableEq, Repr

/-- The `Blackjack` constructor. -/
def Blackjack.make (shuffle : List Card → List Card)
    (numberOfDecks : Nat) (standOnSoft17 allowSurrender : Bool)
    (startingChips nextId : Nat) : GameState :=
  { shoe := Shoe.make shuffle numberOfDecks nextId,
    dealerHand := Hand.init, playerHands := [Hand.init], currentHandIndex := 0,
    standOnSoft17 := standOnSoft17, allowSurrender := allowSurrender,
    chips := startingChips }

/-- Source `Blackjack.endHand(handIndex)`: advance `currentHandIndex` when a later
hand exists; otherwise leave everything to the external driver. -/
def Blackjack.endHand (g : GameState) (i : Nat) : GameState :=
  if i < g.playerHands.length - 1 then { g with currentHandIndex := i + 1 } else g

/-- Source `Blackjack.hit(handIndex)`.  The source reads the hand, deals (mutating
the shoe), then appends; on an out-of-range index the `addCard` access throws
after the shoe was already dealt from.  A `none` card from `deal` (zero-deck
configuration only) would be pushed as `undefined` by the source; here the
hand is left unchanged — the branch is unreachable for `numberOfDecks ≥ 1`
(theorem `deal_isSome`), which the constructor requires. -/
def Blackjack.hit (shuffle : List Card → List Card) (g : GameState) (i : Nat) :
    GameState × Option Card × Option GameError :=
  match Shoe.deal shuffle g.shoe with
  | (cOpt, s2, _) =>
    match g.playerHands[i]? with
    | none => ({ g with shoe := s2 }, cOpt, some GameError.invalidIndex)
    | some hand =>
      match cOpt with
      | none => ({ g with shoe := s2 }, none, none)
      | some c =>
        let hand2 := hand.addCard c
        let g1 := { g with shoe := s2, playerHands := g.playerHands.set i hand2 }
        if hand2.isBusted then (Blackjack.endHand g1 i, some c, none)
        else (g1, some c, none)

/-- Source `Blackjack.stand(handIndex)`. -/
def Blackjack.stand (g : GameState) (i : Nat) : GameState × Option GameError :=
  match g.playerHands[i]? with
  | none => (g, some GameError.invalidIndex)
  | some hand =>
    (Blackjack.endHand
      { g with playerHands := g.playerHands.set i { hand with hasStood := true } } i, none)

/-- Source `Blackjack.surrender(handIndex)`: check `allowSurrender`, then the 2-card
limit, before any mutation. -/
def Blackjack.surrender (g : GameState) (i : Nat) : GameState × Option GameError :=
  if g.allowSurrender = false then (g, some GameError.invalidAction)
  else
    match g.playerHands[i]? with
    | none => (g, some GameError.invalidIndex)
    | some hand =>
      if 2 < hand.cards.length then (g, some GameError.invalidAction)
      else
        (Blackjack.endHand
          { g with playerHands := g.playerHands.set i { hand with hasSurrendered := true } } i,
          none)

/-- Source `Blackjack.double(handIndex)`: 2-card check; ensure `originalBet`
(`if (!hand.originalBet) hand.originalBet = hand.bet || 0`); set `doubled`;
double the bet; `hit`; stand unless the hit busted the hand. -/
def Blackjack.double (shuffle : List Card → List Card) (g : GameState) (i : Nat) :
    GameState × Option GameError :=
  match g.playerHands[i]? with
  | none => (g, some GameError.invalidIndex)
  | some hand =>
    if hand.cards.length ≠ 2 then (g, some GameError.invalidAction)
    else
      let hand1 :=
        { hand with
          originalBet := if truthyN hand.originalBet then hand.originalBet else some hand.bet,
          doubled := true, bet := 2 * hand.bet }
      let g1 := { g with playerHands := g.playerHands.set i hand1 }
      match Blackjack.hit shuffle g1 i with
      | (g2, _, some e) => (g2, some e)
      | (g2, _, none) =>
        match g2.playerHands[i]? with
        | none => (g2, some GameError.invalidIndex)
        | some hand2 => if hand2.isBusted then (g2, none) else Blackjack.stand g2 i

/-- Source `Blackjack.split(handIndex)`: requires exactly 2 cards of equal value;
builds the new hand (same bet, `originalBet || bet` basis), marks both hands
`isSplit`, moves the popped second card into the new hand, deals one fresh
card to the new hand and then one to the source hand, and splices the new
hand in immediately after the source.  A `none` dealt card (zero-deck
configuration only) is skipped rather than pushed as `undefined`. -/
def Blackjack.split (shuffle : List Card → List Card) (g : GameState) (i : Nat) :
    GameState × Option GameError :=
  match g.playerHands[i]? with
  | none => (g, some GameError.invalidIndex)
  | some hand =>
    match hand.cards with
    | [c0, c1] =>
      if c0.getValue ≠ c1.getValue then (g, some GameError.invalidAction)
      else
        let hand1 := { hand with cards := [c0], isSplit := true }
        let newHand : Hand :=
          { cards := [c1], bet := hand.bet,
            originalBet :=
              some (if truthyN hand.originalBet then hand.originalBet.getD 0 else hand.bet),
            hasStood := false, hasSurrendered := false, doubled := false, isSplit := true }
        match Shoe.deal shuffle g.shoe with
        | (d1Opt, s1, _) =>
          let newHand2 := { newHand with cards := newHand.cards ++ d1Opt.toList }
          match Shoe.deal shuffle s1 with
          | (d2Opt, s2, _) =>
            let hand2 := { hand1 with cards := hand1.cards ++ d2Opt.toList }
            ({ g with
                shoe := s2
                playerHands := (g.playerHands.set i hand2).insertIdx (i + 1) newHand2 },
              none)
    | _ => (g, some GameError.invalidAction)

/-- Source `Blackjack.dealerPlay()`: deal exactly one card to the dealer hand.  A
`none` dealt card (zero-deck configuration only) is skipped. -/
def Blackjack.dealerPlay (shuffle : List Card → List Card) (g : GameState) :
    GameState × Option Card :=
  match Shoe.deal shuffle g.shoe with
  | (cOpt, s2, _) =>
    ({ g with shoe := s2, dealerHand := { g.dealerHand with cards := g.dealerHand.cards ++ cOpt.toList } },
      cOpt)

/-- Source `Blackjack.shouldDealerHit()`: hit below 17; on exactly 17, recount the
dealer's aces and the non-Ace sum and hit only on a soft 17 under H17; stand
above 17. -/
def Blackjack.shouldDealerHit (g : GameState) : Bool :=
  let score := g.dealerHand.getScore
  if score < 17 then true
  else if score = 17 then
    let p := g.dealerHand.cards.foldl
      (fun p c => if c.rank = Rank.A then (p.1, p.2 + 1) else (p.1 + c.getValue, p.2))
      ((0, 0) : Nat × Nat)
    -- p.1 = hardScore (non-Ace sum), p.2 = aces
    (decide (0 < p.2) && decide (p.1 ≤ 6)) && !g.standOnSoft17
  else false

/-- Source `Blackjack.settleAllHands()`: discard the dealer's cards, then each player
hand's cards in order; end the shoe round; reset all hands. -/
def Blackjack.settleAllHands (g : GameState) : GameState :=
  let s1 := Shoe.addToDiscardPile g.shoe g.dealerHand.cards
  let s2 := g.playerHands.foldl (fun s h => Shoe.addToDiscardPile s h.cards) s1
  { g with
    shoe := Shoe.endRound s2
    dealerHand := Hand.init
    playerHands := [Hand.init]
    currentHandIndex := 0 }

/-! ## Shoe-level trace model

For the conservation invariant we track, next to the shoe, the list `out` of
cards dealt out of the shoe and not yet discarded — exactly the cards
currently held by the dealer hand and the player hands.  The operations are
the ones named by the invariant: `startRound`, `endRound`, `deal` (the dealt
card joins `out`), and `discard k` (`addToDiscardPile` on `k` held cards, as
`settleAllHands` does for each hand). -/

inductive SOp where
  | startRound | endRound | deal | discard (k : Nat)
  deriving DecidableEq, Repr

/-- One shoe-level operation on (shoe, cards held by hands). -/
def stepOp (shuffle : List Card → List Card) (op : SOp) (st : ShoeState × List Card) :
    ShoeState × List Card :=
  match op with
  | .startRound => (Shoe.startRound st.1, st.2)
  | .endRound => (Shoe.endRound st.1, st.2)
  | .deal =>
    match Shoe.deal shuffle st.1 with
    | (cOpt, s2, _) => (s2, st.2 ++ cOpt.toList)
  | .discard k => (Shoe.addToDiscardPile st.1 (st.2.take k), st.2.drop k)

/-- Run a list of shoe-level operations. -/
def runOps (shuffle : List Card → List Card) : List SOp → ShoeState × List Card →
    ShoeState × List Card
  | [], st => st
  | op :: ops, st => runOps shuffle ops (stepOp shuffle op st)

/-- All cards in play: in the shoe, in the discard pile, or held by hands. -/
def pool (st : ShoeState × List Card) : List Card :=
  st.1.cards ++ st.1.discardPile ++ st.2

/-- A trace is safe when `deal` is never invoked while the shoe's cards and
discard pile are simultaneously empty (which would fully reinitialize the
shoe with fresh cards). -/
def safeOps (shuffle : List Card → List Card) :
    ShoeState × List Card → List SOp → Bool
  | _, [] => true
  | st, op :: ops =>
    (match op with
     | .deal => !(st.1.cards ++ st.1.discardPile).isEmpty
     | _ => true) && safeOps shuffle (stepOp shuffle op st) ops

/-- Runs `n` consecutive `deal()` calls: final shoe state, how many of the calls
fired the end-of-shoe notification, and the card returned by the last call. -/
def runDeals (shuffle : List Card → List Card) : Nat → ShoeState →
    ShoeState × Nat × Option Card
  | 0, s => (s, 0, none)
  | n + 1, s =>
    match Shoe.deal shuffle s with
    | (cOpt, s2, fired) =>
      match runDeals shuffle n s2 with
      | (s3, k, last) =>
        (s3, (if fired then 1 else 0) + k, if n = 0 then cOpt else last)

/-! ## Claim-side definitions (phrased from the specification text, for
refinement statements) -/

/-- Score as the spec words it: the sum of the card values with every Ace
initially counted as 11 (`getValue` already maps an Ace to 11), reduced by 10
once per Ace while the total exceeds 21 and an un-downgraded Ace remains. -/
def claimScore (h : Hand) : Nat :=
  reduceAces ((h.cards.map Card.getValue).sum)
    (h.cards.countP fun c => c.rank == Rank.A)

/-- Soft 17 as the spec words it: the hand contains at least one Ace and its
non-Ace cards sum to at most 6. -/
def isSoft17Hand (h : Hand) : Bool :=
  h.cards.any (fun c => c.rank == Rank.A) &&
    decide ((((h.cards.filter fun c => !(c.rank == Rank.A))).map Card.getValue).sum ≤ 6)

/-- A controller state with a given dealer hand and S17/H17 flag (shoe and
player side irrelevant to `shouldDealerHit`); used for concrete instances. -/
def mkDealerState (cards : List Card) (s17 : Bool) : GameState where
  shoe := { cards := [], discardPile := [], numberOfDecks := 1, currentRoundDealt := none, endAlerted := false, nextId := 1 }
  dealerHand := { Hand.init with cards := cards }
  playerHands := [Hand.init]
  currentHandIndex := 0
  standOnSoft17 := s17
  allowSurrender := true
  chips := 1000

/-- A concrete splittable hand {8♠, 8♣} with a placed bet. -/
def witnessHand : Hand :=
  { Hand.init with
    cards := [⟨Suit.spades, Rank.r8, 1⟩, ⟨Suit.clubs, Rank.r8, 2⟩]
    bet := 10
    originalBet := some 10 }

/-- A concrete mid-round state holding `witnessHand`. -/
def witnessGame : GameState where
  shoe := Shoe.make id 1 3
  dealerHand := Hand.init
  playerHands := [witnessHand]
  currentHandIndex := 0
  standOnSoft17 := true
  allowSurrender := true
  chips := 1000

/-- A 3-card hand on which surrender, double and split all fail. -/
def witnessHandBad : Hand :=
  { Hand.init with
    cards := [⟨Suit.spades, Rank.r2, 1⟩, ⟨Suit.clubs, Rank.r3, 2⟩,
      ⟨Suit.hearts, Rank.r4, 3⟩]
    bet := 10 }

/-- A state with surrender disallowed, holding `witnessHandBad`. -/
def witnessGameBad : GameState where
  shoe := Shoe.make id 1 4
  dealerHand := Hand.init
  playerHands := [witnessHandBad]
  currentHandIndex := 0
  standOnSoft17 := true
  allowSurrender := false
  chips := 1000

set_option maxRecDepth 4000

/-! ## Lemmas about the shoe -/

theorem append_append_singleton_perm (c : Card) (l1 l2 : List Card) :
    (l1 ++ (l2 ++ [c])).Perm (c :: (l1 ++ l2)) := by
  rw [← List.append_assoc]
  exact List.perm_append_singleton c (l1 ++ l2)

theorem Deck.make_map_id (startId : Nat) :
    (Deck.make startId).map Card.id = List.range' startId 52 := by
  have hfun : (Card.id ∘ fun p : Nat × (Suit × Rank) =>
      ({ suit := p.2.1, rank := p.2.2, id := startId + p.1 } : Card))
      = ((startId + ·) ∘ Prod.fst) := by
    funext p
    rfl
  have h3 : deckPairs.length = 52 := by decide
  show ((deckPairs.enum.map _).map Card.id) = _
  rw [List.map_map, hfun, ← List.map_map, List.enum_map_fst, h3,
    List.range'_eq_map_range]

theorem freshDecks_spec (d : Nat) : ∀ nid : Nat,
    (freshDecks d nid).1.map Card.id = List.range' nid (52 * d) ∧
    (freshDecks d nid).2 = nid + 52 * d := by
  induction d with
  | zero => intro nid; simp [freshDecks]
  | succ d ih =>
    intro nid
    have h1 := (ih (nid + 52)).1
    have h2 := (ih (nid + 52)).2
    constructor
    · show ((Deck.make nid ++ (freshDecks d (nid + 52)).1).map Card.id) = _
      rw [List.map_append, Deck.make_map_id, h1, List.range'_append_1]
      have : 52 * d + 52 = 52 * (d + 1) := by ring
      rw [this]
    · show (freshDecks d (nid + 52)).2 = _
      rw [h2]
      ring

theorem freshDecks_length (d nid : Nat) : (freshDecks d nid).1.length = 52 * d := by
  have := congrArg List.length (freshDecks_spec d nid).1
  simpa using this

theorem freshDecks_nodup (d nid : Nat) : ((freshDecks d nid).1.map Card.id).Nodup := by
  rw [(freshDecks_spec d nid).1, List.range'_eq_map_range]
  exact (List.nodup_range _).map fun a b h => by omega

theorem initializeShoe_numberOfDecks (shuffle : List Card → List Card) (s : ShoeState) :
    (Shoe.initializeShoe shuffle s).numberOfDecks = s.numberOfDecks := rfl

theorem initializeShoe_discardPile (shuffle : List Card → List Card) (s : ShoeState) :
    (Shoe.initializeShoe shuffle s).discardPile = s.discardPile := rfl

theorem initializeShoe_cards_length (shuffle : List Card → List Card)
    (hlen : ∀ l, (shuffle l).length = l.length) (s : ShoeState) :
    (Shoe.initializeShoe shuffle s).cards.length = 52 * s.numberOfDecks := by
  show (shuffle (freshDecks s.numberOfDecks s.nextId).1).length = _
  rw [hlen, freshDecks_length]

theorem refillIfEmpty_numberOfDecks (shuffle : List Card → List Card) (s : ShoeState) :
    (Shoe.refillIfEmpty shuffle s).numberOfDecks = s.numberOfDecks := by
  unfold Shoe.refillIfEmpty
  split
  · split <;> rfl
  · rfl

theorem refillIfEmpty_currentRoundDealt (shuffle : List Card → List Card) (s : ShoeState) :
    (Shoe.refillIfEmpty shuffle s).currentRoundDealt = s.currentRoundDealt := by
  unfold Shoe.refillIfEmpty
  split
  · split <;> rfl
  · rfl

/-- With a length-preserving shuffle and at least one deck, the refill step
always leaves at least one card in `cards`. -/
theorem refillIfEmpty_cards_ne_nil (shuffle : List Card → List Card)
    (hlen : ∀ l, (shuffle l).length = l.length) (s : ShoeState)
    (hD : 1 ≤ s.numberOfDecks) : (Shoe.refillIfEmpty shuffle s).cards ≠ [] := by
  unfold Shoe.refillIfEmpty
  split
  · rename_i hc
    split
    · intro hnil
      have := initializeShoe_cards_length shuffle hlen s
      rw [hnil] at this
      simp at this
      omega
    · rename_i hd
      intro hnil
      simp only at hnil
      have : (shuffle s.discardPile).length = s.discardPile.length := hlen _
      rw [hnil] at this
      simp at this
      have h0 : s.discardPile = [] := List.length_eq_zero.mp this.symm
      simp [h0] at hd
  · rename_i hc
    intro hnil
    rw [hnil] at hc
    simp at hc

/-- When the shoe's pool (cards plus discard) is nonempty, the refill step
never reinitializes and only permutes the pool. -/
theorem refillIfEmpty_pool_perm (shuffle : List Card → List Card)
    (hsh : ∀ l, (shuffle l).Perm l) (s : ShoeState)
    (h : s.cards ++ s.discardPile ≠ []) :
    ((Shoe.refillIfEmpty shuffle s).cards ++ (Shoe.refillIfEmpty shuffle s).discardPile).Perm
      (s.cards ++ s.discardPile) := by
  unfold Shoe.refillIfEmpty
  split
  · rename_i hc
    have hc' : s.cards = [] := List.isEmpty_iff.mp hc
    split
    · rename_i hd
      exact absurd (by simp [hc', List.isEmpty_iff.mp hd]) h
    · simpa [hc'] using hsh s.discardPile
  · exact List.Perm.refl _

theorem dealFinish_fst (fb : Option Card) (s : ShoeState) (ia : Nat) :
    (Shoe.dealFinish fb s ia).1 = fb := by
  unfold Shoe.dealFinish
  split <;> rfl

theorem dealFinish_cards (fb : Option Card) (s : ShoeState) (ia : Nat) :
    ((Shoe.dealFinish fb s ia).2.1).cards = s.cards := by
  unfold Shoe.dealFinish
  split <;> rfl

theorem dealFinish_discardPile (fb : Option Card) (s : ShoeState) (ia : Nat) :
    ((Shoe.dealFinish fb s ia).2.1).discardPile = s.discardPile := by
  unfold Shoe.dealFinish
  split <;> rfl

theorem dealFinish_numberOfDecks (fb : Option Card) (s : ShoeState) (ia : Nat) :
    ((Shoe.dealFinish fb s ia).2.1).numberOfDecks = s.numberOfDecks := by
  unfold Shoe.dealFinish
  split <;> rfl

/-- The duplicate-avoidance loop only moves cards: whatever it returns, the
resulting cards, discard pile and returned card are a permutation of the
input cards and discard pile. -/
theorem dealLoop_perm (f : Nat) : ∀ (cards discard : List Card) (dealt : Option (List Nat)),
    ((dealLoop f cards discard dealt).2.1 ++ ((dealLoop f cards discard dealt).2.2.1 ++
      ((dealLoop f cards discard dealt).1).toList)).Perm (cards ++ discard) := by
  induction f with
  | zero => intro cards discard dealt; simp [dealLoop]
  | succ f ih =>
    intro cards discard dealt
    cases cards with
    | nil => simp [dealLoop]
    | cons c rest =>
      cases dealt with
      | none =>
        simp only [dealLoop, Option.toList]
        exact append_append_singleton_perm c rest discard
      | some ds =>
        simp only [dealLoop]
        split
        · exact (ih rest (c :: discard) (some ds)).trans List.perm_middle
        · simp only [Option.toList]
          exact append_append_singleton_perm c rest discard

/-- Liveness of `deal()`: with a length-preserving shuffle and at least one
deck, every call returns a card, whatever the state. -/
theorem deal_isSome (shuffle : List Card → List Card)
    (hlen : ∀ l, (shuffle l).length = l.length) (s : ShoeState)
    (hD : 1 ≤ s.numberOfDecks) : (Shoe.deal shuffle s).1.isSome = true := by
  unfold Shoe.deal
  set s1 := Shoe.refillIfEmpty shuffle s with hs1
  rcases hres : dealLoop (max 10 (s1.cards.length + 5)) s1.cards s1.discardPile
      s1.currentRoundDealt with ⟨r, c2, d2, dl2⟩
  dsimp only
  rw [hres]
  cases r with
  | some c => rfl
  | none =>
    dsimp only
    have hD2 : 1 ≤ ({ s1 with
        cards := c2, discardPile := d2, currentRoundDealt := dl2 } : ShoeState).numberOfDecks := by
      show 1 ≤ s1.numberOfDecks
      rw [hs1, refillIfEmpty_numberOfDecks]
      exact hD
    have h2 := refillIfEmpty_cards_ne_nil shuffle hlen _ hD2
    cases hc : (Shoe.refillIfEmpty shuffle { s1 with
        cards := c2, discardPile := d2, currentRoundDealt := dl2 }).cards with
    | nil => exact absurd hc h2
    | cons c rest =>
      dsimp only
      rw [dealFinish_fst]
      rfl

/-- Lemma: `deal()` never changes the number of decks. -/
theorem deal_numberOfDecks (shuffle : List Card → List Card) (s : ShoeState) :
    ((Shoe.deal shuffle s).2.1).numberOfDecks = s.numberOfDecks := by
  unfold Shoe.deal
  set s1 := Shoe.refillIfEmpty shuffle s with hs1
  have hnd : s1.numberOfDecks = s.numberOfDecks := by
    rw [hs1, refillIfEmpty_numberOfDecks]
  rcases hres : dealLoop (max 10 (s1.cards.length + 5)) s1.cards s1.discardPile
      s1.currentRoundDealt with ⟨r, c2, d2, dl2⟩
  dsimp only
  rw [hres]
  cases r with
  | some c => exact hnd
  | none =>
    dsimp only
    cases hc : (Shoe.refillIfEmpty shuffle { s1 with
        cards := c2, discardPile := d2, currentRoundDealt := dl2 }).cards with
    | nil =>
      dsimp only
      rw [dealFinish_numberOfDecks, refillIfEmpty_numberOfDecks]
      exact hnd
    | cons c rest =>
      dsimp only
      rw [dealFinish_numberOfDecks]
      show (Shoe.refillIfEmpty shuffle _).numberOfDecks = _
      rw [refillIfEmpty_numberOfDecks]
      exact hnd

/-- Conservation at the `deal()` level: as long as the shoe's pool (cards plus
discard pile) is nonempty at the start of the call — so the call never fully
reinitializes — the cards, discard pile and returned card after the call are
a permutation of the cards and discard pile before it. -/
theorem deal_pool_perm (shuffle : List Card → List Card)
    (hsh : ∀ l, (shuffle l).Perm l) (s : ShoeState)
    (h : s.cards ++ s.discardPile ≠ []) :
    (((Shoe.deal shuffle s).2.1).cards ++ (((Shoe.deal shuffle s).2.1).discardPile ++
      ((Shoe.deal shuffle s).1).toList)).Perm (s.cards ++ s.discardPile) := by
  unfold Shoe.deal
  set s1 := Shoe.refillIfEmpty shuffle s with hs1
  have hp1 : (s1.cards ++ s1.discardPile).Perm (s.cards ++ s.discardPile) := by
    rw [hs1]
    exact refillIfEmpty_pool_perm shuffle hsh s h
  have hn1 : s1.cards ++ s1.discardPile ≠ [] := by
    intro hnil
    rw [hnil] at hp1
    exact h hp1.symm.eq_nil
  rcases hres : dealLoop (max 10 (s1.cards.length + 5)) s1.cards s1.discardPile
      s1.currentRoundDealt with ⟨r, c2, d2, dl2⟩
  have hloop := dealLoop_perm (max 10 (s1.cards.length + 5)) s1.cards s1.discardPile
      s1.currentRoundDealt
  rw [hres] at hloop
  dsimp only
  rw [hres]
  cases r with
  | some c => exact hloop.trans hp1
  | none =>
    dsimp only
    simp only [Option.toList, List.append_nil] at hloop
    -- pool after the loop is still nonempty
    have hn2 : c2 ++ d2 ≠ [] := by
      intro hnil
      rw [hnil] at hloop
      exact hn1 hloop.symm.eq_nil
    have hp2 : ((Shoe.refillIfEmpty shuffle { s1 with
        cards := c2, discardPile := d2, currentRoundDealt := dl2 }).cards ++
        (Shoe.refillIfEmpty shuffle { s1 with
        cards := c2, discardPile := d2, currentRoundDealt := dl2 }).discardPile).Perm (c2 ++ d2) :=
      refillIfEmpty_pool_perm shuffle hsh _ hn2
    cases hc : (Shoe.refillIfEmpty shuffle { s1 with
        cards := c2, discardPile := d2, currentRoundDealt := dl2 }).cards with
    | nil =>
      dsimp only
      rw [dealFinish_cards, dealFinish_discardPile, dealFinish_fst, hc]
      rw [hc] at hp2
      simp only [List.nil_append] at hp2
      simp only [Option.toList, List.nil_append, List.append_nil]
      exact (hp2.trans hloop).trans hp1
    | cons c rest =>
      dsimp only
      rw [dealFinish_cards, dealFinish_discardPile, dealFinish_fst]
      rw [hc] at hp2
      dsimp only
      simp only [Option.toList]
      -- rest ++ discard ++ [c] ~ c :: rest ++ discard ~ c2 ++ d2 ~ s1 pool ~ s pool
      exact ((append_append_singleton_perm c rest _).trans
        (hp2.trans (hloop.trans hp1)))

/-- Each safe shoe-level operation permutes the pool of cards in play. -/
theorem stepOp_pool_perm (shuffle : List Card → List Card)
    (hsh : ∀ l, (shuffle l).Perm l) (op : SOp) (st : ShoeState × List Card)
    (hsafe : op = SOp.deal → st.1.cards ++ st.1.discardPile ≠ []) :
    (pool (stepOp shuffle op st)).Perm (pool st) := by
  cases op with
  | startRound => exact List.Perm.refl _
  | endRound => exact List.Perm.refl _
  | deal =>
    rcases hd : Shoe.deal shuffle st.1 with ⟨cOpt, s2, f⟩
    have h := deal_pool_perm shuffle hsh st.1 (hsafe rfl)
    rw [hd] at h
    dsimp only at h
    simp only [stepOp, hd, pool]
    rw [← Multiset.coe_eq_coe]
    have hm : ((s2.cards : Multiset Card) + ((s2.discardPile : Multiset Card) +
        (cOpt.toList : Multiset Card)))
        = (st.1.cards : Multiset Card) + (st.1.discardPile : Multiset Card) :=
      Multiset.coe_eq_coe.mpr h
    show ((s2.cards : Multiset Card) + (s2.discardPile : Multiset Card)) +
        ((st.2 : Multiset Card) + (cOpt.toList : Multiset Card))
        = ((st.1.cards : Multiset Card) + (st.1.discardPile : Multiset Card)) +
          (st.2 : Multiset Card)
    rw [← hm]
    abel
  | discard k =>
    simp only [stepOp, pool, Shoe.addToDiscardPile]
    rw [← Multiset.coe_eq_coe]
    have ht : ((st.2.take k : List Card) : Multiset Card) +
        ((st.2.drop k : List Card) : Multiset Card) = (st.2 : Multiset Card) := by
      rw [show ((st.2.take k : List Card) : Multiset Card) +
          ((st.2.drop k : List Card) : Multiset Card)
          = ((st.2.take k ++ st.2.drop k : List Card) : Multiset Card) from rfl,
        List.take_append_drop]
    show ((st.1.cards : Multiset Card) + (((st.2.take k).reverse : List Card) +
        (st.1.discardPile : Multiset Card))) + ((st.2.drop k : List Card) : Multiset Card)
        = ((st.1.cards : Multiset Card) + (st.1.discardPile : Multiset Card)) +
          (st.2 : Multiset Card)
    rw [Multiset.coe_reverse, ← ht]
    abel

/-- Over a safe trace (no deal from a fully empty shoe pool), the pool of
cards in play is a permutation of the initial pool. -/
theorem runOps_pool_perm (shuffle : List Card → List Card)
    (hsh : ∀ l, (shuffle l).Perm l) (ops : List SOp) :
    ∀ st : ShoeState × List Card, safeOps shuffle st ops = true →
      (pool (runOps shuffle ops st)).Perm (pool st) := by
  induction ops with
  | nil => intro st _; exact List.Perm.refl _
  | cons op ops ih =>
    intro st h
    simp only [runOps]
    cases op with
    | startRound =>
      have h1 : (true && safeOps shuffle (stepOp shuffle SOp.startRound st) ops) = true := h
      rw [Bool.true_and] at h1
      exact (ih _ h1).trans (stepOp_pool_perm shuffle hsh _ st (by intro hop; cases hop))
    | endRound =>
      have h1 : (true && safeOps shuffle (stepOp shuffle SOp.endRound st) ops) = true := h
      rw [Bool.true_and] at h1
      exact (ih _ h1).trans (stepOp_pool_perm shuffle hsh _ st (by intro hop; cases hop))
    | discard k =>
      have h1 : (true && safeOps shuffle (stepOp shuffle (SOp.discard k) st) ops) = true := h
      rw [Bool.true_and] at h1
      exact (ih _ h1).trans (stepOp_pool_perm shuffle hsh _ st (by intro hop; cases hop))
    | deal =>
      have h1 : ((!(st.1.cards ++ st.1.discardPile).isEmpty) &&
          safeOps shuffle (stepOp shuffle SOp.deal st) ops) = true := h
      rw [Bool.and_eq_true] at h1
      refine (ih _ h1.2).trans (stepOp_pool_perm shuffle hsh _ st ?_)
      intro _ hnil
      have h2 := h1.1
      rw [hnil] at h2
      simp at h2

theorem Shoe.make_pool_perm (shuffle : List Card → List Card)
    (hsh : ∀ l, (shuffle l).Perm l) (D nid : Nat) :
    (pool (Shoe.make shuffle D nid, [])).Perm (freshDecks D nid).1 := by
  have he : pool (Shoe.make shuffle D nid, [])
      = shuffle (freshDecks D nid).1 ++ [] ++ [] := rfl
  rw [he, List.append_nil, List.append_nil]
  exact hsh _

theorem Shoe.make_pool_length (shuffle : List Card → List Card)
    (hsh : ∀ l, (shuffle l).Perm l) (D nid : Nat) :
    (pool (Shoe.make shuffle D nid, [])).length = 52 * D := by
  rw [(Shoe.make_pool_perm shuffle hsh D nid).length_eq, freshDecks_length]

theorem Shoe.make_pool_nodup (shuffle : List Card → List Card)
    (hsh : ∀ l, (shuffle l).Perm l) (D nid : Nat) :
    ((pool (Shoe.make shuffle D nid, [])).map Card.id).Nodup := by
  rw [((Shoe.make_pool_perm shuffle hsh D nid).map Card.id).nodup_iff]
  exact freshDecks_nodup D nid

/-! ## Claims C1–C3: shoe behaviour -/

/-- C1: the spec requires that when a `deal()` call starts with exactly one
card available (snapshot `initialAvailable == 1`), the end-of-shoe
notification fires during that call, exactly once per shoe lifetime; its
scenario deals all 52 cards of a 1-deck shoe in one open round and expects
the 52nd call to return a card and the hook to fire exactly once.  The code
does not satisfy this: on the 52nd call the (non-duplicate) last card is
returned from inside the duplicate-avoidance loop, before the hook-firing
block is ever reached — the call returns a card but the notification fires
zero times across all 52 calls. -/
theorem C1_endOfShoe_notification_never_fires_in_scenario :
    (runDeals id 52 (Shoe.startRound (Shoe.make id 1 1))).2.2.isSome = true ∧
    (runDeals id 52 (Shoe.startRound (Shoe.make id 1 1))).2.1 = 0 := by
  decide

/-- C2 counterexample: the conservation claim fails as stated.  From a fresh
1-deck shoe, 53 consecutive `deal()` calls (cards retained by hands, nothing
discarded) make the 53rd call fully reinitialize the shoe with 52 fresh
cards, after which the pool of cards in play has 104 elements, not 52·1. -/
theorem C2_conservation_claim_false :
    (pool (runOps id (List.replicate 53 SOp.deal) (Shoe.make id 1 1, []))).length ≠ 52 * 1 := by
  decide

/-- C2 (amended): for a fresh shoe with `D ≥ 1` decks and a permuting
shuffle, after any sequence of `startRound` / `endRound` / `deal` /
`addToDiscardPile`-of-held-cards operations in which `deal` is never invoked
while the shoe's cards and discard pile are simultaneously empty (i.e. the
shoe never fully reinitializes), the pool — cards in the shoe, cards in the
discard pile, and cards held by hands — has exactly `52·D` elements and all
its card ids are pairwise distinct. -/
theorem C2_conservation_amended (shuffle : List Card → List Card)
    (hsh : ∀ l, (shuffle l).Perm l) (D nid : Nat) (hD : 1 ≤ D) (ops : List SOp)
    (hsafe : safeOps shuffle (Shoe.make shuffle D nid, []) ops = true) :
    (pool (runOps shuffle ops (Shoe.make shuffle D nid, []))).length = 52 * D ∧
    ((pool (runOps shuffle ops (Shoe.make shuffle D nid, []))).map Card.id).Nodup := by
  have hp := runOps_pool_perm shuffle hsh ops _ hsafe
  constructor
  · rw [hp.length_eq]
    exact Shoe.make_pool_length shuffle hsh D nid
  · rw [(hp.map Card.id).nodup_iff]
    exact Shoe.make_pool_nodup shuffle hsh D nid

theorem C2_conservation_amended_witness :
    (∀ l : List Card, (id l).Perm l) ∧ (1 : Nat) ≤ 1 ∧
    safeOps id (Shoe.make id 1 1, [])
      [SOp.startRound, SOp.deal, SOp.discard 1, SOp.endRound] = true ∧
    ((pool (runOps id [SOp.startRound, SOp.deal, SOp.discard 1, SOp.endRound]
        (Shoe.make id 1 1, []))).length = 52 * 1 ∧
      ((pool (runOps id [SOp.startRound, SOp.deal, SOp.discard 1, SOp.endRound]
        (Shoe.make id 1 1, []))).map Card.id).Nodup) :=
  ⟨fun l => List.Perm.refl l, by decide, by decide,
    C2_conservation_amended id (fun l => List.Perm.refl l) 1 1 (by decide) _ (by decide)⟩

/-- C3: for every shoe with at least one deck (the constructor precondition)
and any length-preserving shuffle, `deal()` terminates and returns a card in
every state — round open or closed, cards or discard pile empty or not —
recovering internally by refilling from the shuffled discard pile or by
fully reinitializing the shoe. -/
theorem C3_deal_never_fails (shuffle : List Card → List Card)
    (hlen : ∀ l, (shuffle l).length = l.length) (s : ShoeState)
    (hD : 1 ≤ s.numberOfDecks) :
    ∃ c : Card, (Shoe.deal shuffle s).1 = some c :=
  Option.isSome_iff_exists.mp (deal_isSome shuffle hlen s hD)

theorem C3_deal_never_fails_witness :
    (∀ l : List Card, (id l).length = l.length) ∧
    1 ≤ ({ cards := [], discardPile := [], numberOfDecks := 1, currentRoundDealt := some [], endAlerted := false, nextId := 1 } : ShoeState).numberOfDecks ∧
    ∃ c : Card, (Shoe.deal id ({ cards := [], discardPile := [], numberOfDecks := 1, currentRoundDealt := some [], endAlerted := false, nextId := 1 } : ShoeState)).1 = some c :=
  ⟨fun l => rfl, by decide,
    C3_deal_never_fails id (fun l => rfl) _ (by decide)⟩

/-! ## Claims C4–C6: hand scoring and dealer policy -/

/-- The single-pass accumulation of `getScore()` computes the total value
(an Ace's `getValue()` is 11) and the number of Aces. -/
theorem foldl_scoreAces (cards : List Card) : ∀ a b : Nat,
    cards.foldl
      (fun p c => if c.rank = Rank.A then (p.1 + 11, p.2 + 1) else (p.1 + c.getValue, p.2))
      (a, b)
    = (a + (cards.map Card.getValue).sum, b + cards.countP fun c => c.rank == Rank.A) := by
  induction cards with
  | nil => intro a b; simp
  | cons c rest ih =>
    intro a b
    by_cases h : c.rank = Rank.A
    · have hv : c.getValue = 11 := by simp [Card.getValue, h]
      simp only [List.foldl_cons, h, if_true, ih, List.map_cons, List.sum_cons,
        List.countP_cons, hv, Prod.mk.injEq]
      constructor <;> first | omega | (simp [h]; omega) | simp [h]
    · simp only [List.foldl_cons, h, if_false, ih, List.map_cons, List.sum_cons,
        List.countP_cons, Prod.mk.injEq]
      constructor <;> first | omega | (simp [h]; omega) | simp [h]

/-- The recount inside `shouldDealerHit()` computes the non-Ace sum and the
number of Aces. -/
theorem foldl_hardAces (cards : List Card) : ∀ a b : Nat,
    cards.foldl
      (fun p c => if c.rank = Rank.A then (p.1, p.2 + 1) else (p.1 + c.getValue, p.2))
      (a, b)
    = (a + (((cards.filter fun c => !(c.rank == Rank.A))).map Card.getValue).sum,
       b + cards.countP fun c => c.rank == Rank.A) := by
  induction cards with
  | nil => intro a b; simp
  | cons c rest ih =>
    intro a b
    by_cases h : c.rank = Rank.A
    · simp only [List.foldl_cons, h, if_true, ih, List.filter_cons, List.countP_cons,
        Prod.mk.injEq]
      constructor <;> first | omega | (simp [h]; omega) | simp [h]
    · simp only [List.foldl_cons, h, if_false, ih, List.filter_cons, List.countP_cons,
        Prod.mk.injEq]
      constructor <;> first | omega | (simp [h]; omega) | simp [h]

theorem any_eq_countP_pos (cards : List Card) (p : Card → Bool) :
    cards.any p = decide (0 < cards.countP p) := by
  cases hb : cards.any p with
  | false =>
    rw [List.any_eq_false] at hb
    have h0 : cards.countP p = 0 := by
      rw [List.countP_eq_zero]
      exact hb
    simp [h0]
  | true =>
    have h1 : 0 < cards.countP p := List.countP_pos.mpr (List.any_eq_true.mp hb)
    simp [h1]

/-- C4: `shouldDealerHit()` hits below 17; at exactly 17 it hits iff the hand
is soft (at least one Ace, non-Ace cards summing to at most 6) and
`standOnSoft17` is false; above 17 it stands.  In particular it hits on 16
({10,6}), hits {A,6} exactly when `standOnSoft17 === false`, and stands on
{10,7} under either rule. -/
theorem C4_shouldDealerHit_spec :
    (∀ g : GameState,
      Blackjack.shouldDealerHit g =
        (decide (g.dealerHand.getScore < 17) ||
          (decide (g.dealerHand.getScore = 17) && isSoft17Hand g.dealerHand &&
            !g.standOnSoft17))) ∧
    Blackjack.shouldDealerHit
      (mkDealerState [⟨Suit.spades, Rank.r10, 1⟩, ⟨Suit.clubs, Rank.r6, 2⟩] true) = true ∧
    Blackjack.shouldDealerHit
      (mkDealerState [⟨Suit.spades, Rank.A, 1⟩, ⟨Suit.clubs, Rank.r6, 2⟩] false) = true ∧
    Blackjack.shouldDealerHit
      (mkDealerState [⟨Suit.spades, Rank.A, 1⟩, ⟨Suit.clubs, Rank.r6, 2⟩] true) = false ∧
    Blackjack.shouldDealerHit
      (mkDealerState [⟨Suit.spades, Rank.r10, 1⟩, ⟨Suit.clubs, Rank.r7, 2⟩] true) = false ∧
    Blackjack.shouldDealerHit
      (mkDealerState [⟨Suit.spades, Rank.r10, 1⟩, ⟨Suit.clubs, Rank.r7, 2⟩] false) = false := by
  refine ⟨?_, by decide, by decide, by decide, by decide, by decide⟩
  intro g
  simp only [Blackjack.shouldDealerHit, isSoft17Hand,
    foldl_hardAces g.dealerHand.cards 0 0, Nat.zero_add,
    any_eq_countP_pos g.dealerHand.cards fun c => c.rank == Rank.A]
  by_cases h1 : g.dealerHand.getScore < 17
  · simp [h1]
  · by_cases h2 : g.dealerHand.getScore = 17
    · simp [h1, h2]
    · simp [h1, h2]

/-- C5: `getScore()` equals the sum of the card values with every Ace
initially counted as 11, reduced by 10 once per Ace while the total exceeds
21 and an un-downgraded Ace remains; in particular {A,A} scores 12, {A,K}
scores 21, {A,A,9} scores 21, and {7,7,7} scores 21. -/
theorem C5_getScore_spec :
    (∀ h : Hand, h.getScore = claimScore h) ∧
    Hand.getScore { Hand.init with
      cards := [⟨Suit.spades, Rank.A, 1⟩, ⟨Suit.clubs, Rank.A, 2⟩] } = 12 ∧
    Hand.getScore { Hand.init with
      cards := [⟨Suit.spades, Rank.A, 1⟩, ⟨Suit.clubs, Rank.K, 2⟩] } = 21 ∧
    Hand.getScore { Hand.init with
      cards := [⟨Suit.spades, Rank.A, 1⟩, ⟨Suit.clubs, Rank.A, 2⟩,
        ⟨Suit.hearts, Rank.r9, 3⟩] } = 21 ∧
    Hand.getScore { Hand.init with
      cards := [⟨Suit.spades, Rank.r7, 1⟩, ⟨Suit.clubs, Rank.r7, 2⟩,
        ⟨Suit.hearts, Rank.r7, 3⟩] } = 21 := by
  refine ⟨?_, by decide, by decide, by decide, by decide⟩
  intro h
  simp only [Hand.getScore, Hand.scoreAces, claimScore, foldl_scoreAces h.cards 0 0,
    Nat.zero_add]

/-- C6: `isBlackjack()` holds exactly when the hand has exactly 2 cards and
scores 21; a 3-card 21 such as {7,7,7} is not a blackjack. -/
theorem C6_isBlackjack_spec :
    (∀ h : Hand, h.isBlackjack = true ↔ (h.cards.length = 2 ∧ h.getScore = 21)) ∧
    Hand.isBlackjack { Hand.init with
      cards := [⟨Suit.spades, Rank.r7, 1⟩, ⟨Suit.clubs, Rank.r7, 2⟩,
        ⟨Suit.hearts, Rank.r7, 3⟩] } = false ∧
    Hand.getScore { Hand.init with
      cards := [⟨Suit.spades, Rank.r7, 1⟩, ⟨Suit.clubs, Rank.r7, 2⟩,
        ⟨Suit.hearts, Rank.r7, 3⟩] } = 21 ∧
    Hand.isBlackjack { Hand.init with
      cards := [⟨Suit.spades, Rank.A, 1⟩, ⟨Suit.clubs, Rank.K, 2⟩] } = true := by
  refine ⟨?_, by decide, by decide, by decide⟩
  intro h
  simp [Hand.isBlackjack]

/-! ## Claims C7–C10: player actions -/

theorem lt_length_of_getElem?_eq_some {α : Type} {l : List α} {i : Nat} {a : α}
    (h : l[i]? = some a) : i < l.length := by
  by_contra hn
  rw [List.getElem?_eq_none (by omega)] at h
  cases h

theorem deal_eq_some (shuffle : List Card → List Card)
    (hlen : ∀ l, (shuffle l).length = l.length) (s : ShoeState)
    (hD : 1 ≤ s.numberOfDecks) :
    ∃ c s2 f, Shoe.deal shuffle s = (some c, s2, f) := by
  rcases hres : Shoe.deal shuffle s with ⟨cOpt, s2, f⟩
  have hs := deal_isSome shuffle hlen s hD
  rw [hres] at hs
  cases cOpt with
  | none => simp at hs
  | some c => exact ⟨c, s2, f, rfl⟩

/-- Behaviour of `hit` on a valid index when the shoe deals a card: the card
is appended to the hand, and the hand is ended exactly when it busted. -/
theorem hit_spec (shuffle : List Card → List Card) (g : GameState) (i : Nat)
    (hand : Hand) (hhand : g.playerHands[i]? = some hand)
    (d : Card) (sd : ShoeState) (f : Bool)
    (hde : Shoe.deal shuffle g.shoe = (some d, sd, f)) :
    Blackjack.hit shuffle g i =
      (if (hand.addCard d).isBusted then
        Blackjack.endHand
          { g with shoe := sd, playerHands := g.playerHands.set i (hand.addCard d) } i
      else { g with shoe := sd, playerHands := g.playerHands.set i (hand.addCard d) },
        some d, none) := by
  simp only [Blackjack.hit, hde, hhand]
  split <;> rfl

/-- C9: `surrender` throws exactly when `allowSurrender` is false or the hand
holds more than 2 cards; otherwise it marks the hand surrendered and ends it,
advancing `currentHandIndex` to the next hand when a later hand exists and
leaving it unchanged when the hand is the last one. -/
theorem C9_surrender_spec (g : GameState) (i : Nat) (hand : Hand)
    (hhand : g.playerHands[i]? = some hand) :
    ((Blackjack.surrender g i).2 ≠ none ↔
      (g.allowSurrender = false ∨ 2 < hand.cards.length)) ∧
    (g.allowSurrender = true → hand.cards.length ≤ 2 →
      Blackjack.surrender g i =
        ({ g with
            playerHands := g.playerHands.set i { hand with hasSurrendered := true }
            currentHandIndex :=
              if i < g.playerHands.length - 1 then i + 1 else g.currentHandIndex },
          none)) := by
  constructor
  · constructor
    · intro herr
      by_cases hallow : g.allowSurrender = true
      · by_cases hlen2 : 2 < hand.cards.length
        · exact Or.inr hlen2
        · exfalso
          apply herr
          simp [Blackjack.surrender, hallow, hhand, hlen2, Blackjack.endHand]
      · simp only [Bool.not_eq_true] at hallow
        exact Or.inl hallow
    · intro hor
      rcases hor with hallow | hlen2
      · simp [Blackjack.surrender, hallow]
      · cases hallow : g.allowSurrender with
        | false => simp [Blackjack.surrender, hallow]
        | true => simp [Blackjack.surrender, hallow, hhand, hlen2]
  · intro hallow hlen2
    simp only [Blackjack.surrender, hallow, Bool.true_eq_false, if_false, hhand,
      Nat.not_lt.mpr hlen2, if_neg, Blackjack.endHand, List.length_set]
    split <;> rfl

/-- C10: whenever `surrender`, `double` or `split` throws its precondition
error (`InvalidAction`), the returned engine state is exactly the input
state: the failed operation performs no partial mutation. -/
theorem C10_failed_actions_preserve_state (shuffle : List Card → List Card)
    (g : GameState) (i : Nat) :
    ((Blackjack.surrender g i).2 = some GameError.invalidAction →
      (Blackjack.surrender g i).1 = g) ∧
    ((Blackjack.double shuffle g i).2 = some GameError.invalidAction →
      (Blackjack.double shuffle g i).1 = g) ∧
    ((Blackjack.split shuffle g i).2 = some GameError.invalidAction →
      (Blackjack.split shuffle g i).1 = g) := by
  refine ⟨?_, ?_, ?_⟩
  · -- surrender
    cases hallow : g.allowSurrender with
    | false => intro _; simp [Blackjack.surrender, hallow]
    | true =>
      cases hhand : g.playerHands[i]? with
      | none => intro _; simp [Blackjack.surrender, hallow, hhand]
      | some hand =>
        by_cases hlen2 : 2 < hand.cards.length
        · intro _; simp [Blackjack.surrender, hallow, hhand, hlen2]
        · intro habs
          simp [Blackjack.surrender, hallow, hhand, hlen2] at habs
  · -- double
    cases hhand : g.playerHands[i]? with
    | none => intro habs; simp [Blackjack.double, hhand] at habs
    | some hand =>
      by_cases hlen2 : hand.cards.length = 2
      · intro habs
        exfalso
        have hi : i < g.playerHands.length := lt_length_of_getElem?_eq_some hhand
        rcases hde : Shoe.deal shuffle g.shoe with ⟨cOpt, sd, f⟩
        cases cOpt with
        | none =>
          by_cases hb : ({ hand with originalBet := (if truthyN hand.originalBet then hand.originalBet else some hand.bet), doubled := true, bet := 2 * hand.bet } : Hand).isBusted = true <;>
          by_cases hcmp : i < g.playerHands.length - 1 <;>
            simp [Blackjack.double, hhand, hlen2, Blackjack.hit, hde,
              List.getElem?_set_self hi, List.set_set, List.length_set,
              Blackjack.stand, Blackjack.endHand, hb, hcmp] at habs
        | some d =>
          by_cases hb : (({ hand with originalBet := (if truthyN hand.originalBet then hand.originalBet else some hand.bet), doubled := true, bet := 2 * hand.bet } : Hand).addCard d).isBusted = true <;>
          by_cases hcmp : i < g.playerHands.length - 1 <;>
            simp [Blackjack.double, hhand, hlen2, Blackjack.hit, hde,
              List.getElem?_set_self hi, List.set_set, List.length_set,
              Blackjack.stand, Blackjack.endHand, hb, hcmp] at habs
      · intro _
        simp [Blackjack.double, hhand, hlen2]
  · -- split
    cases hhand : g.playerHands[i]? with
    | none => intro habs; simp [Blackjack.split, hhand] at habs
    | some hand =>
      rcases hc : hand.cards with _ | ⟨c0, _ | ⟨c1, _ | ⟨c2, rest⟩⟩⟩
      · intro _; simp [Blackjack.split, hhand, hc]
      · intro _; simp [Blackjack.split, hhand, hc]
      · by_cases hv : c0.getValue = c1.getValue
        · intro habs
          exfalso
          rcases hde1 : Shoe.deal shuffle g.shoe with ⟨c1Opt, s1, f1⟩
          rcases hde2 : Shoe.deal shuffle s1 with ⟨c2Opt, s2, f2⟩
          simp [Blackjack.split, hhand, hc, hv, hde1, hde2] at habs
        · intro _; simp [Blackjack.split, hhand, hc, hv]
      · intro _; simp [Blackjack.split, hhand, hc]

theorem endHand_playerHands (g : GameState) (i : Nat) :
    (Blackjack.endHand g i).playerHands = g.playerHands := by
  unfold Blackjack.endHand
  split <;> rfl

theorem endHand_shoe (g : GameState) (i : Nat) :
    (Blackjack.endHand g i).shoe = g.shoe := by
  unfold Blackjack.endHand
  split <;> rfl

theorem endHand_currentHandIndex (g : GameState) (i : Nat) :
    (Blackjack.endHand g i).currentHandIndex =
      if i < g.playerHands.length - 1 then i + 1 else g.currentHandIndex := by
  unfold Blackjack.endHand
  split <;> rfl

theorem deal_numberOfDecks_of_eq (shuffle : List Card → List Card) (s : ShoeState)
    {c : Option Card} {s2 : ShoeState} {f : Bool}
    (h : Shoe.deal shuffle s = (c, s2, f)) : s2.numberOfDecks = s.numberOfDecks := by
  have hnd := deal_numberOfDecks shuffle s
  rw [h] at hnd
  exact hnd

/-- C7: `split` throws exactly when the hand does not hold 2 cards of equal
blackjack value; on success it creates the new hand with the same bet and the
`originalBet || bet` basis, marks both hands `isSplit`, moves the second
original card into the new hand, deals one fresh card to the new hand and
then one to the source hand (leaving each with 2 cards), and inserts the new
hand immediately after the source hand. -/
theorem C7_split_spec (shuffle : List Card → List Card)
    (hlen : ∀ l, (shuffle l).length = l.length) (g : GameState)
    (hD : 1 ≤ g.shoe.numberOfDecks) (i : Nat) (hand : Hand)
    (hhand : g.playerHands[i]? = some hand) :
    ((Blackjack.split shuffle g i).2 = some GameError.invalidAction ↔
      ¬ ∃ c0 c1 : Card, hand.cards = [c0, c1] ∧ c0.getValue = c1.getValue) ∧
    (∀ c0 c1 : Card, hand.cards = [c0, c1] → c0.getValue = c1.getValue →
      ∃ (d1 d2 : Card) (s1 s2 : ShoeState) (f1 f2 : Bool),
        Shoe.deal shuffle g.shoe = (some d1, s1, f1) ∧
        Shoe.deal shuffle s1 = (some d2, s2, f2) ∧
        Blackjack.split shuffle g i =
          ({ g with
              shoe := s2
              playerHands := (g.playerHands.set i
                  { hand with cards := [c0, d2], isSplit := true }).insertIdx (i + 1)
                { cards := [c1, d1]
                  bet := hand.bet
                  originalBet := some (if truthyN hand.originalBet then
                    hand.originalBet.getD 0 else hand.bet)
                  hasStood := false
                  hasSurrendered := false
                  doubled := false
                  isSplit := true } }, none)) := by
  constructor
  · constructor
    · intro herr hex
      rcases hex with ⟨c0, c1, hc, hv⟩
      obtain ⟨d1, s1, f1, hde1⟩ := deal_eq_some shuffle hlen g.shoe hD
      have hD2 : 1 ≤ s1.numberOfDecks := by
        rw [deal_numberOfDecks_of_eq shuffle g.shoe hde1]
        exact hD
      obtain ⟨d2, s2, f2, hde2⟩ := deal_eq_some shuffle hlen s1 hD2
      simp [Blackjack.split, hhand, hc, hv, hde1, hde2] at herr
    · intro hnex
      rcases hc : hand.cards with _ | ⟨c0, _ | ⟨c1, _ | ⟨c2, rest⟩⟩⟩
      · simp [Blackjack.split, hhand, hc]
      · simp [Blackjack.split, hhand, hc]
      · by_cases hv : c0.getValue = c1.getValue
        · exact absurd ⟨c0, c1, hc, hv⟩ hnex
        · simp [Blackjack.split, hhand, hc, hv]
      · simp [Blackjack.split, hhand, hc]
  · intro c0 c1 hc hv
    obtain ⟨d1, s1, f1, hde1⟩ := deal_eq_some shuffle hlen g.shoe hD
    have hD2 : 1 ≤ s1.numberOfDecks := by
      rw [deal_numberOfDecks_of_eq shuffle g.shoe hde1]
      exact hD
    obtain ⟨d2, s2, f2, hde2⟩ := deal_eq_some shuffle hlen s1 hD2
    refine ⟨d1, d2, s1, s2, f1, f2, hde1, hde2, ?_⟩
    simp [Blackjack.split, hhand, hc, hv, hde1, hde2]

/-- C8: `double` throws exactly when the hand does not hold 2 cards; on
success it bases `originalBet` on the current bet when unset, marks the hand
doubled, doubles its bet, deals exactly one card, and — exactly when that
card does not bust the hand — marks it as stood; either way the hand is
ended (the turn advances when a later hand exists). -/
theorem C8_double_spec (shuffle : List Card → List Card)
    (hlen : ∀ l, (shuffle l).length = l.length) (g : GameState)
    (hD : 1 ≤ g.shoe.numberOfDecks) (i : Nat) (hand : Hand)
    (hhand : g.playerHands[i]? = some hand) :
    ((Blackjack.double shuffle g i).2 = some GameError.invalidAction ↔
      hand.cards.length ≠ 2) ∧
    (hand.cards.length = 2 →
      ∃ (d : Card) (g2 : GameState) (hand2 : Hand),
        Blackjack.double shuffle g i = (g2, none) ∧
        g2.playerHands[i]? = some hand2 ∧
        hand2.cards = hand.cards ++ [d] ∧
        hand2.doubled = true ∧
        hand2.bet = 2 * hand.bet ∧
        hand2.originalBet =
          (if truthyN hand.originalBet then hand.originalBet else some hand.bet) ∧
        (hand2.isBusted = false → hand2.hasStood = true) ∧
        (hand2.isBusted = true → hand2.hasStood = hand.hasStood) ∧
        g2.playerHands.length = g.playerHands.length ∧
        g2.currentHandIndex =
          (if i < g.playerHands.length - 1 then i + 1 else g.currentHandIndex)) := by
  have hi : i < g.playerHands.length := lt_length_of_getElem?_eq_some hhand
  obtain ⟨d, sd, f, hde⟩ := deal_eq_some shuffle hlen g.shoe hD
  have hsucc : hand.cards.length = 2 →
      ∃ (d : Card) (g2 : GameState) (hand2 : Hand),
        Blackjack.double shuffle g i = (g2, none) ∧
        g2.playerHands[i]? = some hand2 ∧
        hand2.cards = hand.cards ++ [d] ∧
        hand2.doubled = true ∧
        hand2.bet = 2 * hand.bet ∧
        hand2.originalBet =
          (if truthyN hand.originalBet then hand.originalBet else some hand.bet) ∧
        (hand2.isBusted = false → hand2.hasStood = true) ∧
        (hand2.isBusted = true → hand2.hasStood = hand.hasStood) ∧
        g2.playerHands.length = g.playerHands.length ∧
        g2.currentHandIndex =
          (if i < g.playerHands.length - 1 then i + 1 else g.currentHandIndex) := by
    intro hlen2
    by_cases hb : (({ hand with originalBet := (if truthyN hand.originalBet then hand.originalBet else some hand.bet), doubled := true, bet := 2 * hand.bet } : Hand).addCard d).isBusted = true
    · refine ⟨d,
        Blackjack.endHand { g with
          shoe := sd
          playerHands := g.playerHands.set i
            (({ hand with originalBet := (if truthyN hand.originalBet then hand.originalBet else some hand.bet), doubled := true, bet := 2 * hand.bet } : Hand).addCard d) } i,
        ({ hand with originalBet := (if truthyN hand.originalBet then hand.originalBet else some hand.bet), doubled := true, bet := 2 * hand.bet } : Hand).addCard d,
        ?_, ?_, ?_, ?_, ?_, ?_, ?_, ?_, ?_, ?_⟩
      · simp [Blackjack.double, hhand, hlen2, Blackjack.hit, hde,
          List.getElem?_set_self hi, List.set_set, endHand_playerHands, hb]
      · rw [endHand_playerHands]
        exact List.getElem?_set_self hi
      · simp [Hand.addCard]
      · rfl
      · rfl
      · rfl
      · intro hfalse
        rw [hfalse] at hb
        cases hb
      · intro _
        rfl
      · rw [endHand_playerHands, List.length_set]
      · rw [endHand_currentHandIndex, List.length_set]
    · rw [Bool.not_eq_true] at hb
      refine ⟨d,
        Blackjack.endHand { g with
          shoe := sd
          playerHands := g.playerHands.set i
            { (({ hand with originalBet := (if truthyN hand.originalBet then hand.originalBet else some hand.bet), doubled := true, bet := 2 * hand.bet } : Hand).addCard d) with hasStood := true } } i,
        { (({ hand with originalBet := (if truthyN hand.originalBet then hand.originalBet else some hand.bet), doubled := true, bet := 2 * hand.bet } : Hand).addCard d) with hasStood := true },
        ?_, ?_, ?_, ?_, ?_, ?_, ?_, ?_, ?_, ?_⟩
      · simp [Blackjack.double, hhand, hlen2, Blackjack.hit, hde,
          List.getElem?_set_self hi, List.set_set, endHand_playerHands, hb,
          Blackjack.stand]
      · rw [endHand_playerHands]
        exact List.getElem?_set_self hi
      · simp [Hand.addCard]
      · rfl
      · rfl
      · rfl
      · intro _
        rfl
      · intro htrue
        exfalso
        have : (({ hand with originalBet := (if truthyN hand.originalBet then hand.originalBet else some hand.bet), doubled := true, bet := 2 * hand.bet } : Hand).addCard d).isBusted = true := htrue
        rw [hb] at this
        cases this
      · rw [endHand_playerHands, List.length_set]
      · rw [endHand_currentHandIndex, List.length_set]
  refine ⟨?_, hsucc⟩
  constructor
  · intro herr
    by_contra hlen2
    obtain ⟨d2, g2, hand2, heq, -⟩ := hsucc hlen2
    rw [heq] at herr
    cases herr
  · intro hlen2
    simp [Blackjack.double, hhand, hlen2]

theorem C7_split_spec_witness :
    (∀ l : List Card, (id l).length = l.length) ∧
    1 ≤ witnessGame.shoe.numberOfDecks ∧
    witnessGame.playerHands[0]? = some witnessHand ∧
    (((Blackjack.split id witnessGame 0).2 = some GameError.invalidAction ↔
      ¬ ∃ c0 c1 : Card, witnessHand.cards = [c0, c1] ∧ c0.getValue = c1.getValue) ∧
    (∀ c0 c1 : Card, witnessHand.cards = [c0, c1] → c0.getValue = c1.getValue →
      ∃ (d1 d2 : Card) (s1 s2 : ShoeState) (f1 f2 : Bool),
        Shoe.deal id witnessGame.shoe = (some d1, s1, f1) ∧
        Shoe.deal id s1 = (some d2, s2, f2) ∧
        Blackjack.split id witnessGame 0 =
          ({ witnessGame with
              shoe := s2
              playerHands := (witnessGame.playerHands.set 0
                  { witnessHand with cards := [c0, d2], isSplit := true }).insertIdx (0 + 1)
                { cards := [c1, d1]
                  bet := witnessHand.bet
                  originalBet := some (if truthyN witnessHand.originalBet then
                    witnessHand.originalBet.getD 0 else witnessHand.bet)
                  hasStood := false
                  hasSurrendered := false
                  doubled := false
                  isSplit := true } }, none))) :=
  ⟨fun l => rfl, by decide, by decide,
    C7_split_spec id (fun l => rfl) witnessGame (by decide) 0 witnessHand (by decide)⟩

theorem C8_double_spec_witness :
    (∀ l : List Card, (id l).length = l.length) ∧
    1 ≤ witnessGame.shoe.numberOfDecks ∧
    witnessGame.playerHands[0]? = some witnessHand ∧
    (((Blackjack.double id witnessGame 0).2 = some GameError.invalidAction ↔
      witnessHand.cards.length ≠ 2) ∧
    (witnessHand.cards.length = 2 →
      ∃ (d : Card) (g2 : GameState) (hand2 : Hand),
        Blackjack.double id witnessGame 0 = (g2, none) ∧
        g2.playerHands[0]? = some hand2 ∧
        hand2.cards = witnessHand.cards ++ [d] ∧
        hand2.doubled = true ∧
        hand2.bet = 2 * witnessHand.bet ∧
        hand2.originalBet = (if truthyN witnessHand.originalBet then
          witnessHand.originalBet else some witnessHand.bet) ∧
        (hand2.isBusted = false → hand2.hasStood = true) ∧
        (hand2.isBusted = true → hand2.hasStood = witnessHand.hasStood) ∧
        g2.playerHands.length = witnessGame.playerHands.length ∧
        g2.currentHandIndex = (if 0 < witnessGame.playerHands.length - 1 then 0 + 1
          else witnessGame.currentHandIndex))) :=
  ⟨fun l => rfl, by decide, by decide,
    C8_double_spec id (fun l => rfl) witnessGame (by decide) 0 witnessHand (by decide)⟩

theorem C9_surrender_spec_witness :
    witnessGame.playerHands[0]? = some witnessHand ∧
    (((Blackjack.surrender witnessGame 0).2 ≠ none ↔
      (witnessGame.allowSurrender = false ∨ 2 < witnessHand.cards.length)) ∧
    (witnessGame.allowSurrender = true → witnessHand.cards.length ≤ 2 →
      Blackjack.surrender witnessGame 0 =
        ({ witnessGame with
            playerHands := witnessGame.playerHands.set 0
              { witnessHand with hasSurrendered := true }
            currentHandIndex :=
              if 0 < witnessGame.playerHands.length - 1 then 0 + 1
              else witnessGame.currentHandIndex },
          none))) :=
  ⟨by decide, C9_surrender_spec witnessGame 0 witnessHand (by decide)⟩

theorem C10_failed_actions_preserve_state_witness :
    (Blackjack.surrender witnessGameBad 0).2 = some GameError.invalidAction ∧
    (Blackjack.surrender witnessGameBad 0).1 = witnessGameBad ∧
    (Blackjack.double id witnessGameBad 0).2 = some GameError.invalidAction ∧
    (Blackjack.double id witnessGameBad 0).1 = witnessGameBad ∧
    (Blackjack.split id witnessGameBad 0).2 = some GameError.invalidAction ∧
    (Blackjack.split id witnessGameBad 0).1 = witnessGameBad :=
  ⟨by decide,
    (C10_failed_actions_preserve_state id witnessGameBad 0).1 (by decide),
    by decide,
    (C10_failed_actions_preserve_state id witnessGameBad 0).2.1 (by decide),
    by decide,
    (C10_failed_actions_preserve_state id witnessGameBad 0).2.2 (by decide)⟩
